import Mathlib

/-!
Shallow embedding of the Ember spark messaging core:
`Service.cpp` (send / send_tracked / broadcast / shutdown) and the
heartbeat `CoreHandler` (handle_message, handle_event, handle_ping,
handle_pong, trigger_pings, set_timer, shutdown).

Conventions of the embedding:
* 128-bit uuids, flatbuffer payloads and callback objects are opaque and
  represented as `Nat` tokens.
* A `Link`'s weak transport pointer (`std::weak_ptr<NetworkSession>`) is an
  `Option Transport`: `none` means `lock()` fails (the transport was torn
  down), `some t` means `lock()` succeeds and yields `t`.
* Performed network writes are returned as explicit lists of
  `(transport id, buffer)` events rather than hidden side effects.
-/

namespace Ember

/-- Role / mode of a peer service entry (CLIENT, SERVER, BOTH), as in
`ServicesMap::Mode` / `EventDispatcher::Mode`. -/
inductive Mode
  | CLIENT
  | SERVER
  | BOTH
deriving DecidableEq, Repr

/-- Modelled from the spec: the transport collaborator (`NetworkSession`) is
not under src/.  Spec section 6: the transport exposes a `write` that queues
the buffer, does not block and reports failures via DOWN events rather than
exceptions; here a transport is just its identity. -/
structure Transport where
  id : Nat
deriving DecidableEq, Repr

/-- Modelled from the spec: `Link` (spark `Link.h`) is not under src/.
Spec section 3: a Link is an opaque unique id, a description (irrelevant to
the claims, omitted) and a non-owning weak reference to its transport;
equality and hashing are by id only. -/
structure Link where
  uuid : Nat
  net : Option Transport
deriving DecidableEq, Repr

/-- Link equality as used by `std::list::remove` on peers: spec section 3
says Link equality compares ids only. -/
def linkEq (a b : Link) : Bool :=
  a.uuid == b.uuid

/-- Membership of a link in a peer list, up to `linkEq`. -/
def linkMem (l : Link) (ps : List Link) : Bool :=
  ps.any (fun p => linkEq p l)

/-- Number of stored copies of a link in a peer list, up to `linkEq`. -/
def countLink (l : Link) (ps : List Link) : Nat :=
  ps.countP (fun p => linkEq p l)

/-- Embedding of `Service::Result` as used in `Service.cpp` (`Result::OK`,
`Result::LINK_GONE`). -/
inductive Result
  | OK
  | LINK_GONE
deriving DecidableEq, Repr

/-- Modelled from the spec: `NetworkSession::write` is not under src/.
Spec section 6: `write(Envelope)` queues and does not block; spec section 7:
network errors surface as DOWN events, not as exceptions at the call site.
`write` therefore always succeeds, returning the performed write event; the
`Except` shape records that `Service::send` guards the call with
`catch(std::out_of_range)`. -/
def netWrite (t : Transport) (fbb : Nat) : Except Unit (Nat × Nat) :=
  Except.ok (t.id, fbb)

/-- Embedding of `Service::send` (Service.cpp lines 80-91): lock the weak pointer; if the
lock fails return `LINK_GONE`, otherwise write the buffer and return `OK`;
a `std::out_of_range` escaping the body is caught and turned into
`LINK_GONE`.  Returns the result together with the writes performed. -/
def send (link : Link) (fbb : Nat) : Result × List (Nat × Nat) :=
  match link.net with
  | none => (Result.LINK_GONE, [])
  | some net =>
    match netWrite net fbb with
    | Except.ok w => (Result.OK, [w])
    | Except.error _ => (Result.LINK_GONE, [])

/-- A pending tracked request recorded by the tracking service
(spec section 3 `PendingRequest`; callback is an opaque token). -/
structure PendingRequest where
  dest : Link
  id : Nat
  callback : Nat
  timeoutMs : Nat
deriving DecidableEq, Repr

/-- Modelled from the spec: `TrackingService::register_tracked` is not under
src/.  Spec section 4.3 `track`: records a PendingRequest keyed by
correlation id with the given timeout; an id that is already pending is
rejected (`DuplicateCorrelation`).  Returns the updated pending map and
whether the registration was accepted; `Service::send_tracked` discards the
second component, as the C++ call discards any result. -/
def register_tracked (pending : List PendingRequest) (link : Link)
    (id cb timeoutMs : Nat) : List PendingRequest × Bool :=
  if pending.any (fun p => p.id == id) then
    (pending, false)
  else
    ({ dest := link, id := id, callback := cb, timeoutMs := timeoutMs } :: pending, true)

/-- Ordered actions performed by `send_tracked`, so that the order
registration-then-send is visible in the embedding. -/
inductive TrackAction
  | registered (id timeoutMs : Nat) (accepted : Bool)
  | sendAttempt (res : Result)
deriving DecidableEq, Repr

/-- Outcome of `Service::send_tracked`: the pending map after the call, the
returned `Result`, the writes performed, and the ordered action trace. -/
structure SendTrackedOut where
  pending : List PendingRequest
  result : Result
  writes : List (Nat × Nat)
  trace : List TrackAction
deriving DecidableEq, Repr

/-- Embedding of `Service::send_tracked` (Service.cpp lines 93-97): registers the tracked
request with a hard-coded `std::chrono::seconds(5)` timeout, then performs
`send` and returns its result.  The signature has no timeout parameter and
the registration outcome is discarded. -/
def send_tracked (pending : List PendingRequest) (link : Link)
    (id fbb cb : Nat) : SendTrackedOut :=
  let reg := register_tracked pending link id cb 5000
  let res := send link fbb
  { pending := reg.1
    result := res.1
    writes := res.2
    trace := [TrackAction.registered id 5000 reg.2, TrackAction.sendAttempt res.1] }

/-- One entry of the services map: a link advertising a service under a
role. -/
structure ServicesEntry where
  service : Nat
  role : Mode
  link : Link
deriving DecidableEq, Repr

/-- Spec section 4.1 role filtering: CLIENT matches CLIENT and BOTH, SERVER
matches SERVER and BOTH, BOTH matches all. -/
def roleMatches (role filter : Mode) : Bool :=
  filter == Mode.BOTH || role == Mode.BOTH || role == filter

/-- Modelled from the spec: `ServicesMap::peer_services` is not under src/.
Spec section 4.1 `peers_of(service, role_filter)`: the links advertising
`service` whose role matches the filter. -/
def peer_services (entries : List ServicesEntry) (service : Nat) (mode : Mode) :
    List Link :=
  (entries.filter (fun e => e.service == service && roleMatches e.role mode)).map
    (fun e => e.link)

/-- Embedding of `Service::broadcast` (Service.cpp lines 99-115): look up the peers of
the service under the role filter, lock each link's weak pointer, write the
buffer on every lock that succeeds, silently skip entries whose lock fails,
and return `OK`. -/
def broadcast (entries : List ServicesEntry) (service : Nat) (mode : Mode)
    (fbb : Nat) : Result × List (Nat × Nat) :=
  let links := peer_services entries service mode
  (Result.OK,
    links.filterMap (fun link =>
      match link.net with
      | some net => (netWrite net fbb).toOption
      | none => none))

/-- Message payloads dispatched to the core handler
(`messaging::Data_Ping`, `messaging::Data_Pong`, anything else). -/
inductive MsgData
  | Ping (timestamp : Nat)
  | Pong (timestamp : Nat)
  | Other (tag : Nat)
deriving DecidableEq, Repr

/-- Link state transitions (`LinkState::LINK_UP`, `LinkState::LINK_DOWN`). -/
inductive LinkState
  | LINK_UP
  | LINK_DOWN
deriving DecidableEq, Repr

/-- One envelope handed to `service_->send` by the core handler
(send results are discarded by the handler: fire and forget). -/
structure Sent where
  target : Link
  data : MsgData
deriving DecidableEq, Repr

/-- Diagnostic log lines emitted by the core handler. -/
inductive LogEntry
  | unhandledWarn (uuid : Nat)
  | pingTime (ms : Nat)
deriving DecidableEq, Repr

/-- The mutable state of `CoreHandler`: the peer list (`std::list` `peers_`,
guarded by `lock_`) plus the state of its asio deadline timer `timer_`:
whether an `async_wait` is outstanding and whether that outstanding wait has
been cancelled (will complete with `operation_aborted`). -/
structure CoreHandler where
  peers : List Link
  timerArmed : Bool
  timerCancelled : Bool
deriving DecidableEq, Repr

/-- Embedding of `CoreHandler::handle_event` (CoreHandler.cpp lines 40-48): `LINK_UP`
pushes the link on the front of `peers_`; anything else runs
`peers_.remove(link)`, which erases every stored element equal to it. -/
def handle_event (s : CoreHandler) (link : Link) (state : LinkState) :
    CoreHandler :=
  if state = LinkState.LINK_UP then
    { s with peers := link :: s.peers }
  else
    { s with peers := s.peers.filter (fun p => !(linkEq p link)) }

/-- Embedding of `CoreHandler::send_ping`: builds a Ping envelope carrying the current
monotonic time and hands it to `service_->send` (result discarded). -/
def send_ping (link : Link) (now : Nat) : Sent :=
  { target := link, data := MsgData.Ping now }

/-- Embedding of `CoreHandler::send_pong` (CoreHandler.cpp lines 74-80): builds a Pong
envelope carrying the given time and hands it to `service_->send`
(result discarded). -/
def send_pong (link : Link) (time : Nat) : Sent :=
  { target := link, data := MsgData.Pong time }

/-- Embedding of `CoreHandler::handle_ping` (CoreHandler.cpp lines 50-53): reads the
Ping's timestamp and replies with `send_pong(link, timestamp)`. -/
def handle_ping (s : CoreHandler) (link : Link) (timestamp : Nat) :
    CoreHandler × List Sent :=
  (s, [send_pong link timestamp])

/-- Unsigned 64-bit subtraction: in `handle_pong` the C++ expression
`time - pong->timestamp()` mixes `int64_t` with `uint64_t`, so it is
evaluated modulo 2^64. -/
def sub_u64 (a b : Nat) : Nat :=
  (a + 2 ^ 64 - b % 2 ^ 64) % 2 ^ 64

/-- Embedding of `CoreHandler::handle_pong` (CoreHandler.cpp lines 55-63): takes the
current monotonic time, and if the Pong's timestamp is nonzero logs the
elapsed time `now - timestamp` as the observed ping time; nothing else
happens.  Returns the emitted log lines. -/
def handle_pong (now timestamp : Nat) : List LogEntry :=
  if timestamp != 0 then
    [LogEntry.pingTime (sub_u64 now timestamp)]
  else
    []

/-- Embedding of `CoreHandler::handle_message` (CoreHandler.cpp lines 25-38): dispatch on
the data kind: Ping to `handle_ping`, Pong to `handle_pong`, anything else
logs an unhandled-message warning.  Returns the new handler state, the
envelopes sent and the log lines emitted. -/
def handle_message (s : CoreHandler) (link : Link) (msg : MsgData)
    (now : Nat) : CoreHandler × List Sent × List LogEntry :=
  match msg with
  | MsgData.Ping ts =>
    let r := handle_ping s link ts
    (r.1, r.2, [])
  | MsgData.Pong ts =>
    (s, [], handle_pong now ts)
  | MsgData.Other _ =>
    (s, [], [LogEntry.unhandledWarn link.uuid])

/-- Embedding of `CoreHandler::trigger_pings` (CoreHandler.cpp lines 82-94): if the error
code is set (the timer was aborted) return at once; otherwise send a ping,
stamped with the current monotonic time, to every link in `peers_`, then
`set_timer()` rearms the wait. -/
def trigger_pings (ec : Bool) (s : CoreHandler) (now : Nat) :
    CoreHandler × List Sent :=
  if ec then
    (s, [])
  else
    ({ s with timerArmed := true, timerCancelled := false },
     s.peers.map (fun l => send_ping l now))

/-- asio timer semantics for `timer_`: a fire is delivered only while a wait
is outstanding; delivery consumes the wait and passes
`ec = operation_aborted` exactly when the wait had been cancelled, then runs
`trigger_pings`. -/
def fire_timer (s : CoreHandler) (now : Nat) : CoreHandler × List Sent :=
  if s.timerArmed then
    trigger_pings s.timerCancelled
      { s with timerArmed := false, timerCancelled := false } now
  else
    (s, [])

/-- Embedding of `CoreHandler::shutdown` (CoreHandler.cpp lines 101-103):
`timer_.cancel()` marks the outstanding wait, if any, as aborted. -/
def hb_shutdown (s : CoreHandler) : CoreHandler :=
  { s with timerCancelled := s.timerCancelled || s.timerArmed }

/-- Events the heartbeat handler reacts to between message deliveries:
timer fires, link up/down transitions, and `shutdown` calls. -/
inductive HbEvent
  | fire (now : Nat)
  | linkEv (link : Link) (state : LinkState)
  | cancel
deriving DecidableEq, Repr

/-- One step of the heartbeat handler on an event, returning the new state
and the envelopes sent. -/
def hb_step (s : CoreHandler) (e : HbEvent) : CoreHandler × List Sent :=
  match e with
  | HbEvent.fire now => fire_timer s now
  | HbEvent.linkEv l st => (handle_event s l st, [])
  | HbEvent.cancel => (hb_shutdown s, [])

/-- Run of the heartbeat handler over a sequence of events, collecting all
envelopes sent. -/
def hb_run (s : CoreHandler) (es : List HbEvent) : CoreHandler × List Sent :=
  match es with
  | [] => (s, [])
  | e :: rest =>
    let r := hb_step s e
    let r2 := hb_run r.1 rest
    (r2.1, r.2 ++ r2.2)

/-! ## Theorems -/

/-- Claim C1: `send(link, envelope)` returns `LinkGone` exactly when the
Link's weak transport reference cannot be resolved, otherwise forwards the
write to the transport and returns `Ok`, and in no case propagates an
unhandled failure (it always returns one of the two `Result` values). -/
theorem C1_send_link_gone_iff (link : Link) (fbb : Nat) :
    ((send link fbb).1 = Result.LINK_GONE ↔ link.net = none)
    ∧ (∀ t, link.net = some t → send link fbb = (Result.OK, [(t.id, fbb)]))
    ∧ ((send link fbb).1 = Result.OK ∨ (send link fbb).1 = Result.LINK_GONE) := by
  rcases link with ⟨u, net⟩
  cases net with
  | none => simp [send]
  | some t => simp [send, netWrite]

/-- Concrete instance of C1: a link whose transport is gone gets
`LINK_GONE`; a link with a live transport gets `OK` and the write is
forwarded to that transport. -/
theorem C1_send_link_gone_iff_witness :
    ((send { uuid := 2, net := none } 9).1 = Result.LINK_GONE)
    ∧ (send { uuid := 1, net := some { id := 7 } } 9 = (Result.OK, [(7, 9)])) :=
  ⟨(C1_send_link_gone_iff { uuid := 2, net := none } 9).1.mpr rfl,
   (C1_send_link_gone_iff { uuid := 1, net := some { id := 7 } } 9).2.1
     { id := 7 } rfl⟩

/-- Claim C2: `send_tracked` registers the tracking entry before the send is
attempted (the action trace starts with the registration), the registration
is still made when the subsequent `send` fails (the resulting pending map
does not depend on the send outcome), and the returned value is the result
of the inner `send`. -/
theorem C2_send_tracked_registers_first (pending : List PendingRequest)
    (link : Link) (id fbb cb : Nat)
    (hfresh : pending.any (fun p => p.id == id) = false) :
    (send_tracked pending link id fbb cb).pending
      = { dest := link, id := id, callback := cb, timeoutMs := 5000 } :: pending
    ∧ (send_tracked pending link id fbb cb).result = (send link fbb).1
    ∧ (send_tracked pending link id fbb cb).trace
      = [TrackAction.registered id 5000 true,
         TrackAction.sendAttempt (send link fbb).1] := by
  refine ⟨?_, rfl, ?_⟩ <;> simp [send_tracked, register_tracked, hfresh]

/-- Concrete instance of C2: on a link whose transport is gone, the inner
`send` fails with `LINK_GONE`, yet the tracking entry is registered and the
failure is returned to the caller. -/
theorem C2_send_tracked_registers_first_witness :
    ((send { uuid := 3, net := none } 4).1 = Result.LINK_GONE)
    ∧ (send_tracked [] { uuid := 3, net := none } 42 4 0).pending
      = [{ dest := { uuid := 3, net := none }, id := 42, callback := 0,
           timeoutMs := 5000 }]
    ∧ (send_tracked [] { uuid := 3, net := none } 42 4 0).result
      = Result.LINK_GONE := by
  have h := C2_send_tracked_registers_first [] { uuid := 3, net := none } 42 4 0 rfl
  exact ⟨rfl, h.1, h.2.1⟩

/-- Counterexample to claim C3 as stated: with correlation id 42 already
pending, `send_tracked` on a live link does not fail with
`DuplicateCorrelation` — it returns `OK`, the result of the inner `send`,
and leaves the pending map unchanged.  (Its signature also carries no
caller-supplied timeout: the registration is made with the fixed 5000 ms
timeout.) -/
theorem C3_duplicate_returns_ok :
    (send_tracked
        [{ dest := { uuid := 5, net := none }, id := 42, callback := 0,
           timeoutMs := 5000 }]
        { uuid := 1, net := some { id := 7 } } 42 9 1).result = Result.OK
    ∧ (send_tracked
        [{ dest := { uuid := 5, net := none }, id := 42, callback := 0,
           timeoutMs := 5000 }]
        { uuid := 1, net := some { id := 7 } } 42 9 1).pending
      = [{ dest := { uuid := 5, net := none }, id := 42, callback := 0,
           timeoutMs := 5000 }] := by
  exact ⟨rfl, rfl⟩

/-- Claim C3 amended: `send_tracked` takes no caller-supplied timeout —
every entry it registers carries the fixed 5-second (5000 ms) timeout — and
its result is always the result of the inner `send`, hence `OK` or
`LINK_GONE`; a duplicate correlation id is not surfaced to the caller. -/
theorem C3_fixed_timeout_no_duplicate_error (pending : List PendingRequest)
    (link : Link) (id fbb cb : Nat) :
    (send_tracked pending link id fbb cb).result = (send link fbb).1
    ∧ ((send_tracked pending link id fbb cb).result = Result.OK
        ∨ (send_tracked pending link id fbb cb).result = Result.LINK_GONE)
    ∧ (∀ p, p ∈ (send_tracked pending link id fbb cb).pending →
        p ∉ pending → p.timeoutMs = 5000) := by
  refine ⟨rfl, ?_, ?_⟩
  · cases h : (send link fbb).1 with
    | OK => exact Or.inl h
    | LINK_GONE => exact Or.inr h
  · intro p hp hnp
    by_cases hdup : pending.any (fun q => q.id == id) = true
    · exfalso
      apply hnp
      simpa [send_tracked, register_tracked, hdup] using hp
    · simp only [Bool.not_eq_true] at hdup
      simp only [send_tracked, register_tracked, hdup, Bool.false_eq_true,
        if_false, List.mem_cons] at hp
      rcases hp with rfl | hp
      · rfl
      · exact absurd hp hnp

/-- Concrete instance of the amended C3: a fresh tracked send on a live link
returns `OK` and records the fixed 5000 ms timeout. -/
theorem C3_fixed_timeout_no_duplicate_error_witness :
    (send_tracked [] { uuid := 1, net := some { id := 7 } } 8 9 1).result
      = Result.OK
    ∧ ({ dest := { uuid := 1, net := some { id := 7 } }, id := 8,
         callback := 1, timeoutMs := 5000 } : PendingRequest).timeoutMs
      = 5000 := by
  have h := C3_fixed_timeout_no_duplicate_error []
    { uuid := 1, net := some { id := 7 } } 8 9 1
  exact ⟨h.1, h.2.2 _ (by simp [send_tracked, register_tracked]) (by simp)⟩

/-- Claim C4: for every incoming Ping, the core handler replies with exactly
one Pong whose timestamp equals the Ping's timestamp unchanged, keeps its
state unchanged and logs nothing. -/
theorem C4_ping_echoed_as_pong (s : CoreHandler) (link : Link) (ts now : Nat) :
    handle_message s link (MsgData.Ping ts) now
      = (s, [{ target := link, data := MsgData.Pong ts }], []) := rfl

/-- A heartbeat handler state is quiet when any outstanding timer wait has
already been cancelled. -/
def timerQuiet (s : CoreHandler) : Prop :=
  s.timerArmed = true → s.timerCancelled = true

/-- A quiet heartbeat state sends nothing on any single event and stays
quiet. -/
lemma hb_step_quiet (s : CoreHandler) (e : HbEvent) (h : timerQuiet s) :
    (hb_step s e).2 = [] ∧ timerQuiet (hb_step s e).1 := by
  cases e with
  | fire now =>
    by_cases ha : s.timerArmed = true
    · have hc := h ha
      simp [hb_step, fire_timer, trigger_pings, ha, hc, timerQuiet]
    · simp only [Bool.not_eq_true] at ha
      simp [hb_step, fire_timer, ha]
      exact h
  | linkEv l st =>
    cases st <;> simpa [hb_step, handle_event, timerQuiet] using h
  | cancel =>
    refine ⟨rfl, ?_⟩
    intro ha
    simp [hb_step, hb_shutdown] at ha ⊢
    right
    simpa [hb_step, hb_shutdown] using ha

/-- A quiet heartbeat state sends nothing over any run of events. -/
lemma hb_run_quiet (es : List HbEvent) (s : CoreHandler) (h : timerQuiet s) :
    (hb_run s es).2 = [] := by
  induction es generalizing s with
  | nil => rfl
  | cons e rest ih =>
    have hs := hb_step_quiet s e h
    simp [hb_run, hs.1, ih _ hs.2]

/-- Cancelling the timer leaves the handler quiet. -/
lemma hb_shutdown_quiet (s : CoreHandler) : timerQuiet (hb_shutdown s) := by
  intro ha
  simp only [hb_shutdown] at ha ⊢
  simp [ha]

/-- Claim C5: a timer firing delivered while the wait is pending and not
cancelled sends a Ping stamped with the current time to every link in the
peer set and rearms the timer; a firing whose error code indicates
cancellation sends nothing and leaves the timer unarmed; consequently,
after `shutdown()` cancels the timer, no run of timer firings, link events
and further shutdowns sends anything. -/
theorem C5_heartbeat_rounds_and_cancellation :
    (∀ (s : CoreHandler) (now : Nat),
      s.timerArmed = true → s.timerCancelled = false →
        fire_timer s now
          = ({ s with timerArmed := true, timerCancelled := false },
             s.peers.map (fun l => send_ping l now)))
    ∧ (∀ (s : CoreHandler) (now : Nat),
        s.timerCancelled = true →
          (fire_timer s now).2 = []
          ∧ (fire_timer s now).1.timerArmed = false)
    ∧ (∀ (s : CoreHandler) (es : List HbEvent),
        (hb_run (hb_shutdown s) es).2 = []) := by
  refine ⟨?_, ?_, ?_⟩
  · intro s now ha hc
    simp [fire_timer, trigger_pings, ha, hc]
  · intro s now hc
    by_cases ha : s.timerArmed = true
    · simp [fire_timer, trigger_pings, ha, hc]
    · simp only [Bool.not_eq_true] at ha
      simp [fire_timer, ha]
  · intro s es
    exact hb_run_quiet es _ (hb_shutdown_quiet s)

/-- Concrete instance of C5: a live round pings the single peer and rearms;
a cancelled round sends nothing; after shutdown two further firings send
nothing. -/
theorem C5_heartbeat_rounds_and_cancellation_witness :
    (fire_timer
        { peers := [{ uuid := 0, net := none }],
          timerArmed := true,
          timerCancelled := false } 5
      = ({ peers := [{ uuid := 0, net := none }],
           timerArmed := true,
           timerCancelled := false },
         [{ target := { uuid := 0, net := none }, data := MsgData.Ping 5 }]))
    ∧ ((fire_timer
        { peers := [{ uuid := 0, net := none }],
          timerArmed := true,
          timerCancelled := true } 5).2 = [])
    ∧ ((hb_run
        (hb_shutdown
          { peers := [{ uuid := 0, net := none }],
            timerArmed := true,
            timerCancelled := false })
        [HbEvent.fire 6, HbEvent.fire 7]).2 = []) :=
  ⟨C5_heartbeat_rounds_and_cancellation.1 _ 5 rfl rfl,
   (C5_heartbeat_rounds_and_cancellation.2.1 _ 5 rfl).1,
   C5_heartbeat_rounds_and_cancellation.2.2 _ [HbEvent.fire 6, HbEvent.fire 7]⟩

/-- The writes performed by the broadcast loop are in bijection with the
snapshot entries whose weak pointer resolves. -/
lemma broadcast_writes_length (links : List Link) (fbb : Nat) :
    (links.filterMap (fun link =>
        match link.net with
        | some net => (netWrite net fbb).toOption
        | none => none)).length
      = (links.filter (fun l => l.net.isSome)).length := by
  induction links with
  | nil => rfl
  | cons l rest ih =>
    cases h : l.net with
    | none => simp [List.filterMap_cons, List.filter_cons, h, ih]
    | some t =>
      simp [List.filterMap_cons, List.filter_cons, h, netWrite,
        Except.toOption] at ih ⊢
      exact ih

/-- Claim C6: `broadcast` returns `Ok` on every input; the number of writes
equals the number of snapshot entries whose transport resolves (so
unresolvable entries are skipped without error), and every resolvable link
of the snapshot receives the envelope. -/
theorem C6_broadcast_best_effort (entries : List ServicesEntry)
    (service : Nat) (mode : Mode) (fbb : Nat) :
    (broadcast entries service mode fbb).1 = Result.OK
    ∧ (broadcast entries service mode fbb).2.length
      = ((peer_services entries service mode).filter
          (fun l => l.net.isSome)).length
    ∧ (∀ l ∈ peer_services entries service mode, ∀ t, l.net = some t →
        (t.id, fbb) ∈ (broadcast entries service mode fbb).2) := by
  refine ⟨rfl, broadcast_writes_length _ _, ?_⟩
  intro l hl t ht
  simp only [broadcast]
  exact List.mem_filterMap.mpr ⟨l, hl, by simp [ht, netWrite, Except.toOption]⟩

/-- Concrete instance of C6: with one live peer and one already-gone peer
advertising the service, broadcast returns `OK`, performs exactly one
write, and that write reaches the live transport. -/
theorem C6_broadcast_best_effort_witness :
    (broadcast
        [{ service := 1, role := Mode.BOTH,
           link := { uuid := 1, net := some { id := 7 } } },
         { service := 1, role := Mode.CLIENT,
           link := { uuid := 2, net := none } }] 1 Mode.CLIENT 9).1
      = Result.OK
    ∧ (7, 9) ∈ (broadcast
        [{ service := 1, role := Mode.BOTH,
           link := { uuid := 1, net := some { id := 7 } } },
         { service := 1, role := Mode.CLIENT,
           link := { uuid := 2, net := none } }] 1 Mode.CLIENT 9).2 := by
  have h := C6_broadcast_best_effort
    [{ service := 1, role := Mode.BOTH,
       link := { uuid := 1, net := some { id := 7 } } },
     { service := 1, role := Mode.CLIENT,
       link := { uuid := 2, net := none } }] 1 Mode.CLIENT 9
  exact ⟨h.1, h.2.2 { uuid := 1, net := some { id := 7 } } (by decide)
    { id := 7 } rfl⟩

/-- Removing a link from a peer list leaves no copy of it behind. -/
lemma linkMem_remove (ps : List Link) (l : Link) :
    linkMem l (ps.filter (fun p => !(linkEq p l))) = false := by
  induction ps with
  | nil => rfl
  | cons p rest ih =>
    by_cases h : linkEq p l = true
    · simpa [List.filter_cons, h] using ih
    · simp only [Bool.not_eq_true] at h
      simp only [List.filter_cons, linkMem, List.any_cons, h, Bool.not_false,
        if_true, Bool.false_or]
      exact ih

/-- Claim C7: an UP event inserts the link into the peer set and a DOWN
event removes it (every copy, so the link is no longer a member); link
events touch nothing but the peer list, and message handling (ping, pong or
unknown) never changes the handler state — membership is the only per-peer
state kept. -/
theorem C7_peer_set_membership (s : CoreHandler) (link : Link)
    (msg : MsgData) (now : Nat) :
    linkMem link (handle_event s link LinkState.LINK_UP).peers = true
    ∧ linkMem link (handle_event s link LinkState.LINK_DOWN).peers = false
    ∧ (handle_event s link LinkState.LINK_UP).timerArmed = s.timerArmed
    ∧ (handle_event s link LinkState.LINK_DOWN).timerArmed = s.timerArmed
    ∧ (handle_event s link LinkState.LINK_UP).timerCancelled
      = s.timerCancelled
    ∧ (handle_event s link LinkState.LINK_DOWN).timerCancelled
      = s.timerCancelled
    ∧ (handle_message s link msg now).1 = s := by
  refine ⟨?_, ?_, rfl, rfl, rfl, rfl, ?_⟩
  · simp [handle_event, linkMem, linkEq]
  · simpa [handle_event] using linkMem_remove s.peers link
  · cases msg <;> rfl

/-- Unsigned 64-bit subtraction agrees with ordinary subtraction when the
echoed timestamp does not exceed the current time and both fit in 64 bits. -/
lemma sub_u64_of_le (a b : Nat) (h : b ≤ a) (ha : a < 2 ^ 64) :
    sub_u64 a b = a - b := by
  have hb : b < 2 ^ 64 := lt_of_le_of_lt h ha
  unfold sub_u64
  rw [Nat.mod_eq_of_lt hb]
  have hsplit : a + 2 ^ 64 - b = a - b + 2 ^ 64 := by omega
  rw [hsplit, Nat.add_mod_right, Nat.mod_eq_of_lt (by omega)]

/-- Counterexample to claim C8 as stated: a Pong whose echoed timestamp is
zero produces no diagnostic log line at all (and no send and no state
change), although the claim asserts an elapsed-time log line for every
incoming Pong. -/
theorem C8_zero_pong_logs_nothing :
    handle_message
        { peers := [], timerArmed := true, timerCancelled := false }
        { uuid := 4, net := none } (MsgData.Pong 0) 100
      = ({ peers := [], timerArmed := true, timerCancelled := false },
         [], []) := rfl

/-- Claim C8 amended: for every incoming Pong whose echoed timestamp is
nonzero (and not in the future, within 64-bit range), the core handler
computes the elapsed time as the current monotonic time minus the echoed
timestamp, surfaces it only as a single diagnostic log line, sends nothing
and retains no state from it. -/
theorem C8_pong_elapsed_logged (s : CoreHandler) (link : Link) (now ts : Nat)
    (hts : ts ≠ 0) (hle : ts ≤ now) (hnow : now < 2 ^ 64) :
    handle_message s link (MsgData.Pong ts) now
      = (s, [], [LogEntry.pingTime (now - ts)]) := by
  simp [handle_message, handle_pong, hts, sub_u64_of_le now ts hle hnow]

/-- Concrete instance of the amended C8: a Pong echoing timestamp 40 at
time 100 logs a ping time of 60 ms and changes nothing else. -/
theorem C8_pong_elapsed_logged_witness :
    handle_message
        { peers := [], timerArmed := true, timerCancelled := false }
        { uuid := 4, net := none } (MsgData.Pong 40) 100
      = ({ peers := [], timerArmed := true, timerCancelled := false },
         [], [LogEntry.pingTime 60]) :=
  C8_pong_elapsed_logged _ _ 100 40 (by decide) (by norm_num) (by norm_num)

/-- The pings of one round directed at a given link are as many as the
stored copies of that link in the peer list. -/
lemma pings_to_link (ps : List Link) (l : Link) (now : Nat) :
    ((ps.map (fun p => send_ping p now)).filter
        (fun snt => linkEq snt.target l)).length
      = countLink l ps := by
  induction ps with
  | nil => rfl
  | cons p rest ih =>
    simp only [send_ping, countLink] at ih
    by_cases h : linkEq p l = true
    · simp [List.filter_cons, send_ping, countLink, List.countP_cons, h, ih]
    · simp only [Bool.not_eq_true] at h
      simp [List.filter_cons, send_ping, countLink, List.countP_cons, h, ih]

/-- No copy of a link survives its removal from the peer list. -/
lemma countLink_remove (ps : List Link) (l : Link) :
    countLink l (ps.filter (fun p => !(linkEq p l))) = 0 := by
  rw [countLink, List.countP_eq_zero]
  intro p hp
  have := (List.mem_filter.mp hp).2
  simp only [Bool.not_eq_true'] at this
  simp [this]

/-- Claim C9: the peer list does not deduplicate: two UP events for the
same link (absent before) leave two stored copies and the next ping round
sends that link two Pings, while a single DOWN event removes every stored
copy at once. -/
theorem C9_duplicate_up_double_ping (s : CoreHandler) (l : Link) (now : Nat)
    (h : countLink l s.peers = 0) :
    countLink l
      (handle_event (handle_event s l LinkState.LINK_UP) l
        LinkState.LINK_UP).peers = 2
    ∧ (((trigger_pings false
          (handle_event (handle_event s l LinkState.LINK_UP) l
            LinkState.LINK_UP) now).2).filter
        (fun snt => linkEq snt.target l)).length = 2
    ∧ countLink l
        (handle_event
          (handle_event (handle_event s l LinkState.LINK_UP) l
            LinkState.LINK_UP) l LinkState.LINK_DOWN).peers = 0 := by
  have hself : linkEq l l = true := by simp [linkEq]
  refine ⟨?_, ?_, ?_⟩
  · simp [handle_event, countLink, List.countP_cons, hself]
    simpa [countLink] using h
  · rw [trigger_pings]
    simp only [Bool.false_eq_true, if_false]
    rw [pings_to_link]
    simp [handle_event, countLink, List.countP_cons, hself]
    simpa [countLink] using h
  · simp only [handle_event, if_pos, if_neg]
    simpa using countLink_remove
      ((handle_event (handle_event s l LinkState.LINK_UP) l
        LinkState.LINK_UP).peers) l

/-- Concrete instance of C9: from an empty peer list, two UP events for the
same link store it twice, the next round pings it twice, and one DOWN
event removes both copies. -/
theorem C9_duplicate_up_double_ping_witness :
    countLink { uuid := 1, net := none }
      (handle_event
        (handle_event
          { peers := [], timerArmed := true, timerCancelled := false }
          { uuid := 1, net := none } LinkState.LINK_UP)
        { uuid := 1, net := none } LinkState.LINK_UP).peers = 2
    ∧ (((trigger_pings false
          (handle_event
            (handle_event
              { peers := [], timerArmed := true, timerCancelled := false }
              { uuid := 1, net := none } LinkState.LINK_UP)
            { uuid := 1, net := none } LinkState.LINK_UP) 5).2).filter
        (fun snt => linkEq snt.target { uuid := 1, net := none })).length = 2
    ∧ countLink { uuid := 1, net := none }
        (handle_event
          (handle_event
            (handle_event
              { peers := [], timerArmed := true, timerCancelled := false }
              { uuid := 1, net := none } LinkState.LINK_UP)
            { uuid := 1, net := none } LinkState.LINK_UP)
          { uuid := 1, net := none } LinkState.LINK_DOWN).peers = 0 :=
  C9_duplicate_up_double_ping
    { peers := [], timerArmed := true, timerCancelled := false }
    { uuid := 1, net := none } 5 rfl

/-- Claim C10: a Pong whose echoed timestamp is zero is silently ignored:
no elapsed time is logged, nothing is sent and the handler state does not
change, whatever the current time and handler state. -/
theorem C10_zero_timestamp_ignored (s : CoreHandler) (link : Link)
    (now : Nat) :
    handle_message s link (MsgData.Pong 0) now = (s, [], []) := rfl

end Ember
